import Mathlib

/-
Verification development for the thesia repository (src/spec.py, src/main.py).

The embedding models the Python code with exact arithmetic:
- Python floats appearing in the parameter derivations are modelled as rationals;
- Python round (banker's rounding, round-half-to-even) is pyRound;
- numpy/librosa array products (STFT magnitudes, dB conversion, mel filterbank
  application, axes, label tilings) are opaque external computations; they are
  modelled symbolically as terms of free inductive types recording exactly the
  inputs the source passes to each library call, so that preservation versus
  recomputation of each cached product is observable in the model;
- Python exceptions raised inside mutating methods are modelled with Except;
  when an exception escapes a mutating method, the error value carries the
  object state as already mutated at the raise point (Python mutation
  semantics: a raise does not roll back earlier field assignments).

Definitions come first, then the theorems about them.
-/

set_option maxHeartbeats 1000000
set_option maxRecDepth 4000

/-- Python's built-in round on an exact rational: round half to even
(banker's rounding), as used by round(...) throughout src/spec.py.
Rat.floor is the kernel-computable floor from Batteries. -/
def pyRound (q : ℚ) : ℤ :=
  let f := q.floor
  if q - f < 1/2 then f
  else if 1/2 < q - f then f + 1
  else if f % 2 = 0 then f else f + 1

/-- Doubling loop computing the least power of two that is at least n,
with explicit structural fuel so that the kernel can evaluate it. -/
def nextPow2Go (n : ℕ) : ℕ → ℕ → ℕ
  | 0, p => p
  | fuel + 1, p => if n ≤ p then p else nextPow2Go n fuel (2 * p)

/-- Models int(2 ** np.ceil(np.log2 w)) from src/spec.py for w ≥ 1:
the least power of two ≥ w (exact value of the float expression there). -/
def nextPow2 (n : ℕ) : ℕ := nextPow2Go n n 1

/-- Models the Python expression int(2 ** np.ceil(np.log2 w)) at line 17 and
line 62 of src/spec.py, including its failure behavior:
- w < 0: np.log2 yields nan, and int(nan) raises ValueError;
- w = 0: np.log2 yields -inf, 2.0 ** -inf is 0.0, int(0.0) is 0 (no raise);
- w ≥ 1: the exact value, the least power of two ≥ w. -/
def int2ceilLog2 (w : ℤ) : Except String ℕ :=
  if w < 0 then .error "ValueError: cannot convert float NaN to integer"
  else if w = 0 then .ok 0
  else .ok (nextPow2 w.toNat)

deriving instance DecidableEq for Except

/-- Symbolic 2-D numpy arrays produced by the external numeric libraries in
src/spec.py. Each constructor records exactly the arguments the source passes
to the corresponding library call; no numeric content is computed, so two
products are equal in the model iff they were computed by the same call chain
on the same inputs. uninit stands for a field not yet assigned in __init__. -/
inductive Arr : Type
  /-- Placeholder for an attribute before its first assignment. -/
  | uninit : Arr
  /-- np.abs(librosa.stft(wav, n_fft=…, hop_length=…, win_length=…)) -/
  | absStft (wav : List ℚ) (n_fft : ℕ) (hop_length win_length : ℤ) : Arr
  /-- Elementwise multiplication of an array by a scalar. -/
  | smul (c : ℚ) (a : Arr) : Arr
  /-- librosa.amplitude_to_db(a, amin=10**(floor_db/20), top_db=-floor_db),
  i.e. Spectrogram._amp_to_db with the object's floor_db. -/
  | ampToDb (floor_db : ℤ) (a : Arr) : Arr
  /-- librosa.filters.mel(sr, n_fft, n_mel) @ a -/
  | melApply (sr : ℤ) (n_fft : ℕ) (n_mel : ℤ) (a : Arr) : Arr
deriving DecidableEq

/-- Symbolic 1-D axis arrays of src/spec.py. -/
inductive Axis : Type
  /-- Placeholder for an attribute before its first assignment. -/
  | uninit : Axis
  /-- np.arange(spec.shape[1]) * hop_length / sr  (time axis; its length is
  the frame count of the recorded magnitude array). -/
  | time (spec : Arr) (hop_length sr : ℤ) : Axis
  /-- np.linspace(0, hi, num=num) -/
  | linspace0 (hi : ℤ) (num : ℕ) : Axis
  /-- librosa.mel_frequencies(n_mel, fmax=fmax) -/
  | melFreq (n_mel : ℤ) (fmax : ℤ) : Axis
deriving DecidableEq

/-- Symbolic string-label matrices of src/spec.py: np.tile(np.array(
_freq_expr(freq_axis))[:, np.newaxis], (1, len(t_axis))). -/
inductive Labels : Type
  /-- Placeholder for an attribute before its first assignment. -/
  | uninit : Labels
  /-- The tiling of the _freq_expr labels of freq_axis across len(t_axis). -/
  | tileFreqExpr (freq_axis : Axis) (t_axis : Axis) : Labels
deriving DecidableEq

/-- The state of a Spectrogram object (src/spec.py, class Spectrogram).
Field names drop the Python leading underscores: _wav ↦ wav, …, _spec ↦ spec.
The waveform is the post-mix mono signal (the constructor's mean over
channels for multi-channel input happens before any field assignment and no
claim concerns multi-channel input, so the embedding takes the mono result). -/
structure Spectrogram where
  wav : List ℚ
  sr : ℤ
  win_length : ℤ
  hop_length : ℤ
  n_fft : ℕ
  n_mel : ℤ
  floor_db : ℤ
  spec : Arr
  linear : Arr
  t_axis : Axis
  f_linear_axis : Axis
  f_linear_axis_str : Labels
  mel : Arr
  f_mel_axis : Axis
  f_mel_axis_str : Labels
deriving DecidableEq

/-- Spectrogram._update_mel (src/spec.py lines 92-99): recomputes the mel dB
matrix, mel frequency axis, and mel label matrix from the cached linear
magnitude array self._spec; touches no other attribute. It cannot raise. -/
def Spectrogram.updateMel (s : Spectrogram) : Spectrogram :=
  let m := Arr.melApply s.sr s.n_fft s.n_mel s.spec
  let fma := Axis.melFreq s.n_mel (s.sr / 2)
  { s with
    mel := Arr.ampToDb s.floor_db m
    f_mel_axis := fma
    f_mel_axis_str := Labels.tileFreqExpr fma s.t_axis }

/-- Spectrogram._update_linear (src/spec.py lines 76-90): recomputes the
linear magnitude array, linear dB array, time axis, linear frequency axis and
its label matrix, then calls _update_mel. The guarding errors model the
exceptions the external libraries raise inside the np.abs(librosa.stft(...))
call before any attribute is assigned, for this code's numpy >= 1.17 /
librosa <= 0.9 era:
- librosa.util.frame raises ParameterError for hop_length < 1;
- librosa.stft (center=True, the default) reflect-pads the signal by
  n_fft // 2 samples on each side, and np.pad raises ValueError when asked to
  reflect-extend an EMPTY signal by a positive width (n_fft // 2 >= 1);
- librosa.util.frame raises ParameterError (Input is too short) when the
  padded signal is shorter than the frame length n_fft, which is reachable
  only for an empty waveform with n_fft = 1;
- np.fft.rfft raises ValueError for n_fft = 0.
The model tests hop_length first; in the library the padding error precedes
the frame checks, but the conditions can only coincide during construction
from an empty waveform (every empty-waveform construction raises here, so no
engine with an empty waveform ever exists for the setters to mutate), and
the raise-versus-return outcome agrees with the library on every call.
The Python expression self._sr // 2 is floor division by the positive
literal 2, which coincides with Lean's Int division. -/
def Spectrogram.updateLinear (s : Spectrogram) : Except String Spectrogram :=
  if s.hop_length < 1 then
    .error "librosa ParameterError: Invalid hop_length"
  else if s.wav = [] ∧ 1 ≤ s.n_fft / 2 then
    .error "ValueError: cannot extend empty axis 0 using modes other than constant or empty (np.pad with mode reflect in librosa.stft)"
  else if s.wav.length + 2 * (s.n_fft / 2) < s.n_fft then
    .error "librosa ParameterError: Input is too short"
  else if s.n_fft = 0 then
    .error "ValueError: Invalid number of FFT data points"
  else
    let sp := Arr.smul (1024 / (s.win_length : ℚ) * (s.sr : ℚ) / 48000)
      (Arr.absStft s.wav s.n_fft s.hop_length s.win_length)
    let t := Axis.time sp s.hop_length s.sr
    let fla := Axis.linspace0 (s.sr / 2) (s.n_fft / 2 + 1)
    .ok (Spectrogram.updateMel
      { s with
        spec := sp
        linear := Arr.ampToDb s.floor_db sp
        t_axis := t
        f_linear_axis := fla
        f_linear_axis_str := Labels.tileFreqExpr fla t })

/-- Spectrogram.__init__ (src/spec.py lines 10-20): derives win_length,
hop_length and n_fft, then performs the full linear+mel computation.
An error is a Python exception escaping the constructor (so no object
exists): ZeroDivisionError if overlap is 0 (line 16), the int(2**ceil(log2))
failure for a negative win_length (line 17), or a library error inside
_update_linear. There is no validation of the waveform or sample rate. -/
def Spectrogram.init (wav : List ℚ) (sr : ℤ) (win_ms overlap : ℚ) (n_mel : ℤ) :
    Except String Spectrogram :=
  let win_length := pyRound ((sr : ℚ) * win_ms / 1000)
  if overlap = 0 then .error "ZeroDivisionError: division by zero"
  else
    let hop_length := pyRound ((win_length : ℚ) / overlap)
    match int2ceilLog2 win_length with
    | .error e => .error e
    | .ok n_fft =>
        Spectrogram.updateLinear
          { wav := wav, sr := sr, win_length := win_length,
            hop_length := hop_length, n_fft := n_fft, n_mel := n_mel,
            floor_db := -120,
            spec := .uninit, linear := .uninit, t_axis := .uninit,
            f_linear_axis := .uninit, f_linear_axis_str := .uninit,
            mel := .uninit, f_mel_axis := .uninit, f_mel_axis_str := .uninit }

/-- Spectrogram.overlap property getter (src/spec.py lines 40-42):
round(self._win_length / self._hop_length). The overlap is not stored; it is
derived back from the two cached integers. (Python would raise
ZeroDivisionError when hop_length is 0; every theorem below only reads this
on states with positive hop_length.) -/
def Spectrogram.overlap (s : Spectrogram) : ℤ :=
  pyRound ((s.win_length : ℚ) / (s.hop_length : ℚ))

/-- Spectrogram.win_ms property getter (src/spec.py lines 52-54):
round(self._win_length * 1000 / self._sr). -/
def Spectrogram.winMs (s : Spectrogram) : ℤ :=
  pyRound ((s.win_length : ℚ) * 1000 / (s.sr : ℚ))

/-- Spectrogram.overlap property setter (src/spec.py lines 44-50): derive the
new hop_length; if it equals the stored one, return without any change;
otherwise assign it and rerun the full linear+mel recomputation. On a raise
the error carries the state as mutated so far (hop_length already assigned). -/
def Spectrogram.setOverlap (s : Spectrogram) (overlap : ℚ) :
    Except (String × Spectrogram) Spectrogram :=
  if overlap = 0 then .error ("ZeroDivisionError: division by zero", s)
  else
    let hop_length := pyRound ((s.win_length : ℚ) / overlap)
    if hop_length = s.hop_length then .ok s
    else
      let s1 := { s with hop_length := hop_length }
      match s1.updateLinear with
      | .ok s2 => .ok s2
      | .error e => .error (e, s1)

/-- Spectrogram.win_ms property setter (src/spec.py lines 56-63): derive the
new win_length; if unchanged, return without any change; otherwise assign it,
recompute n_fft, and rerun the full linear+mel recomputation. hop_length is
not recomputed. On a raise the error carries the state as mutated so far. -/
def Spectrogram.setWinMs (s : Spectrogram) (win_ms : ℚ) :
    Except (String × Spectrogram) Spectrogram :=
  let win_length := pyRound ((s.sr : ℚ) * win_ms / 1000)
  if win_length = s.win_length then .ok s
  else
    let s1 := { s with win_length := win_length }
    match int2ceilLog2 win_length with
    | .error e => .error (e, s1)
    | .ok n_fft =>
        let s2 := { s1 with n_fft := n_fft }
        match s2.updateLinear with
        | .ok s3 => .ok s3
        | .error e => .error (e, s2)

/-- Spectrogram.n_mel property setter (src/spec.py lines 69-74): if the value
is unchanged, return without any change; otherwise assign it and rerun only
_update_mel. This path cannot raise. -/
def Spectrogram.setNMel (s : Spectrogram) (n_mel : ℤ) : Spectrogram :=
  if n_mel = s.n_mel then s
  else Spectrogram.updateMel { s with n_mel := n_mel }

/-- An inert placeholder state (used only as the default of Option.getD when
naming the result of a concrete successful computation). -/
def emptySpec : Spectrogram :=
  { wav := [], sr := 0, win_length := 0, hop_length := 0, n_fft := 0,
    n_mel := 0, floor_db := 0,
    spec := .uninit, linear := .uninit, t_axis := .uninit,
    f_linear_axis := .uninit, f_linear_axis_str := .uninit,
    mel := .uninit, f_mel_axis := .uninit, f_mel_axis_str := .uninit }

/-- A concrete constructed engine used by the witnesses: one-sample waveform,
sr=48000 Hz, win_ms=40, overlap=4, n_mel=128 (the app's default parameters).
So win_length=1920, hop_length=480, n_fft=2048. -/
def sampleSpec : Spectrogram :=
  (Spectrogram.init [0] 48000 40 4 128).toOption.getD emptySpec

/-- The engine sampleSpec after set_overlap(8) (hop_length becomes 240). -/
def sampleSpecOv8 : Spectrogram :=
  (sampleSpec.setOverlap 8).toOption.getD emptySpec

/-- The engine sampleSpec after set_overlap(1000) (hop_length becomes 2). -/
def sampleSpecOv1000 : Spectrogram :=
  (sampleSpec.setOverlap 1000).toOption.getD emptySpec

/-- The engine sampleSpec after set_window_ms(80) (win_length becomes 3840,
n_fft becomes 4096, hop_length stays 480). -/
def sampleSpecW80 : Spectrogram :=
  (sampleSpec.setWinMs 80).toOption.getD emptySpec

/-- The pool of src/main.py runs a job per uploaded file. A job's decode step
(sf.read over the base64-decoded upload bytes) is an external collaborator;
an upload is modelled by its decode outcome: a (waveform, sample-rate) pair,
or a decode failure with the exception message. -/
inductive AudioContent : Type
  | good (wav : List ℚ) (sr : ℤ) : AudioContent
  | bad (msg : String) : AudioContent
deriving DecidableEq

/-- Model of soundfile.read (src/main.py line 120) on an upload. -/
def sfRead : AudioContent → Except String (List ℚ × ℤ)
  | .good wav sr => .ok (wav, sr)
  | .bad msg => .error msg

/-- The plotly Heatmap built in parse_contents (src/main.py lines 129-138),
restricted to the data-carrying fields. -/
structure Heatmap where
  x : Axis
  y : Option Axis
  z : Arr
  customdata : Labels
  name : String
deriving DecidableEq

/-- The plotly Scattergl built in parse_contents (src/main.py lines 139-146):
x is np.arange(len(wav))/sr and y is the waveform, so the pair (wav, sr)
determines both data fields. -/
structure Scatter where
  wav : List ℚ
  sr : ℤ
  name : String
deriving DecidableEq

/-- The normal return value of parse_contents: either the error-placeholder
html.Div (constant text 'There was an error processing this file.') for a
decode failure, or the (Spectrogram, Heatmap, Scattergl) triple. -/
inductive ParseOut : Type
  | errorDiv : ParseOut
  | result (spec : Spectrogram) (heatmap : Heatmap) (scatter : Scatter) : ParseOut
deriving DecidableEq

/-- parse_contents (src/main.py lines 115-147). Only the sf.read call is
inside the try block: a decode failure is caught and converted to the
error div, a normal return. An exception from the Spectrogram constructor
is NOT caught and escapes the job (the outer Except.error). threadpool_limits
only bounds the BLAS thread count of the external library and has no
observable effect on the computed values, so n_threads is carried but unused. -/
def parse_contents (contents : AudioContent) (fname : String)
    (win_ms overlap : ℚ) (n_mel : ℤ) (freq_scale : String) (_n_threads : ℕ) :
    Except String ParseOut :=
  match sfRead contents with
  | .error _ => .ok .errorDiv
  | .ok (wav, sr) =>
      match Spectrogram.init wav sr win_ms overlap n_mel with
      | .error e => .error e
      | .ok spec =>
          .ok (.result spec
            { x := spec.t_axis
              y := if freq_scale = "mel" then none else some spec.f_linear_axis
              z := if freq_scale = "mel" then spec.mel else spec.linear
              customdata := if freq_scale = "mel" then spec.f_mel_axis_str
                            else spec.f_linear_axis_str
              name := fname }
            { wav := spec.wav, sr := sr, name := fname })

/-- One entry of the argument list built for pool.starmap_async in
update_graphs (src/main.py lines 176-179). -/
structure JobArg where
  contents : AudioContent
  fname : String
  win_ms : ℚ
  overlap : ℚ
  n_mel : ℤ
  freq_scale : String
  n_threads : ℕ
deriving DecidableEq

/-- The argument list update_graphs builds for a batch (src/main.py lines
175-178): n_threads = max(2, mp.cpu_count() // len(contents_list)) is
computed once, before the comprehension, and the same value is put into
every tuple of the batch. -/
def jobArgs (contents_list : List AudioContent) (filenames : List String)
    (win_ms overlap : ℚ) (n_mel : ℤ) (freq_scale : String) (cpu_count : ℕ) :
    List JobArg :=
  let n_threads := max 2 (cpu_count / contents_list.length)
  (contents_list.zip filenames).map fun cf =>
    { contents := cf.1, fname := cf.2, win_ms := win_ms, overlap := overlap,
      n_mel := n_mel, freq_scale := freq_scale, n_threads := n_threads }

/-- Running one pool job (the starmap application of parse_contents to one
argument tuple). -/
def jobRun (a : JobArg) : Except String ParseOut :=
  parse_contents a.contents a.fname a.win_ms a.overlap a.n_mel a.freq_scale
    a.n_threads

/-- The result table of pool.starmap_async: every job writes its outcome into
the slot of its own submission index, whatever order the pool's workers
complete the jobs in. completionOrder is the (arbitrary) order in which the
workers finish; index j completing stores the outcome of job j at slot j. -/
def poolSlots (f : JobArg → Except String ParseOut) (args : List JobArg)
    (completionOrder : List ℕ) : List (Option (Except String ParseOut)) :=
  completionOrder.foldl
    (fun slots j =>
      match args[j]? with
      | some a => slots.set j (some (f a))
      | none => slots)
    (List.replicate args.length none)

/-- Folds the filled slot table into the value starmap_async's .get()
returns: the per-job outcomes in submission order, re-raising the first
raised job exception (in index order) if a job raised. A none slot is a job
that has not completed; it is skipped here because get is only ever read
below once every slot is filled. -/
def collectSlots (slots : List (Option (Except String ParseOut))) :
    Except String (List ParseOut) :=
  slots.foldr
    (fun s acc =>
      match s with
      | none => acc
      | some (.error e) => .error e
      | some (.ok b) => acc.map (b :: ·))
    (.ok [])

/-- result.get() (src/main.py line 193) on the batch submitted at lines
176-179: blocks until every job of the batch has completed — modelled as
none while a slot is still empty — then returns the outcomes in submission
order (or re-raises a job's exception). -/
def starmapAsyncGet (f : JobArg → Except String ParseOut) (args : List JobArg)
    (completionOrder : List ℕ) : Option (Except String (List ParseOut)) :=
  let slots := poolSlots f args completionOrder
  if slots.all Option.isSome then some (collectSlots slots) else none

/-- The batch dispatch of update_graphs on an upload trigger (src/main.py
lines 175-179 and 193): build the argument list with the shared n_threads
cap, submit, and block on get(). -/
def update_graphs_batch (contents_list : List AudioContent)
    (filenames : List String) (win_ms overlap : ℚ) (n_mel : ℤ)
    (freq_scale : String) (cpu_count : ℕ) (completionOrder : List ℕ) :
    Option (Except String (List ParseOut)) :=
  starmapAsyncGet jobRun
    (jobArgs contents_list filenames win_ms overlap n_mel freq_scale cpu_count)
    completionOrder

/-- The property claimed of fft_size: m is a power of two, at least L, and
no smaller power of two is at least L. -/
def isSmallestPow2GE (m : ℕ) (L : ℤ) : Prop :=
  (∃ k, m = 2 ^ k) ∧ L ≤ (m : ℤ) ∧
    ∀ m2 : ℕ, (∃ k, m2 = 2 ^ k) → L ≤ (m2 : ℤ) → m ≤ m2

/-! ## Theorems -/

/-- Batteries' computable Rat.floor agrees with the order-theoretic floor. -/
theorem ratFloor_eq_floor (q : ℚ) : (q.floor : ℤ) = ⌊q⌋ := by
  rw [Rat.floor_def' q, Rat.floor_def]

/-- A nonpositive rational rounds to a nonpositive integer. -/
theorem pyRound_nonpos {q : ℚ} (hq : q ≤ 0) : pyRound q ≤ 0 := by
  have hfl : q.floor = ⌊q⌋ := ratFloor_eq_floor q
  have hf0 : ⌊q⌋ ≤ 0 := Int.floor_nonpos hq
  have hfq : (⌊q⌋ : ℚ) ≤ q := Int.floor_le q
  simp only [pyRound, hfl]
  split
  · exact hf0
  · split
    · rename_i h1 h2
      -- on this branch 1/2 < q - ⌊q⌋, so ⌊q⌋ < q - 1/2 ≤ -1/2, hence ⌊q⌋ ≤ -1
      have h3 : (⌊q⌋ : ℚ) < 0 := by linarith
      have : ⌊q⌋ < 0 := by exact_mod_cast h3
      omega
    · split
      · exact hf0
      · rename_i h1 h2 h3
        -- tie branch with odd floor: q - ⌊q⌋ = 1/2 exactly, so ⌊q⌋ ≤ -1
        have h4 : q - (⌊q⌋ : ℚ) = 1/2 := le_antisymm (not_lt.mp h2) (not_lt.mp h1)
        have h5 : (⌊q⌋ : ℚ) < 0 := by linarith
        have : ⌊q⌋ < 0 := by exact_mod_cast h5
        omega

/-- The rounding of an exact integer is that integer. -/
theorem pyRound_intCast (n : ℤ) : pyRound (n : ℚ) = n := by
  have hfl : ((n : ℚ)).floor = n := by
    rw [ratFloor_eq_floor]; exact Int.floor_intCast n
  simp [pyRound, hfl]

theorem pyRound_zero : pyRound 0 = 0 := by
  simpa using pyRound_intCast 0

theorem nextPow2Go_pow2 (n : ℕ) :
    ∀ (fuel p : ℕ), (∃ j, p = 2 ^ j) → ∃ k, nextPow2Go n fuel p = 2 ^ k := by
  intro fuel
  induction fuel with
  | zero => intro p hp; exact hp
  | succ f ih =>
    intro p hp
    simp only [nextPow2Go]
    split
    · exact hp
    · apply ih
      obtain ⟨j, rfl⟩ := hp
      exact ⟨j + 1, by rw [pow_succ]; ring⟩

theorem nextPow2Go_ge (n : ℕ) :
    ∀ (fuel p : ℕ), n ≤ 2 ^ fuel * p → n ≤ nextPow2Go n fuel p := by
  intro fuel
  induction fuel with
  | zero => intro p h; simpa [nextPow2Go] using h
  | succ f ih =>
    intro p h
    simp only [nextPow2Go]
    split
    · assumption
    · exact ih (2 * p) (by calc n ≤ 2 ^ (f + 1) * p := h
                             _ = 2 ^ f * (2 * p) := by ring)

theorem nextPow2Go_min (n : ℕ) :
    ∀ (fuel p m j k : ℕ), p = 2 ^ j → m = 2 ^ k → n ≤ m → p ≤ m →
      nextPow2Go n fuel p ≤ m := by
  intro fuel
  induction fuel with
  | zero => intro p m j k _ _ _ hpm; simpa [nextPow2Go] using hpm
  | succ f ih =>
    intro p m j k hp hm hnm hpm
    simp only [nextPow2Go]
    split
    · exact hpm
    · rename_i hnp
      apply ih (2 * p) m (j + 1) k (by rw [hp, pow_succ]; ring) hm hnm
      have hplt : p < m := lt_of_lt_of_le (not_le.mp hnp) hnm
      have hjk : j < k := by
        rw [hp, hm] at hplt
        exact (Nat.pow_lt_pow_iff_right (by norm_num)).mp hplt
      calc 2 * p = 2 ^ (j + 1) := by rw [hp, pow_succ]; ring
        _ ≤ 2 ^ k := Nat.pow_le_pow_right (by norm_num) hjk
        _ = m := hm.symm

theorem nextPow2_isPow2 (n : ℕ) : ∃ k, nextPow2 n = 2 ^ k :=
  nextPow2Go_pow2 n n 1 ⟨0, rfl⟩

theorem le_nextPow2 (n : ℕ) : n ≤ nextPow2 n :=
  nextPow2Go_ge n n 1 (by simpa using (Nat.lt_two_pow n).le)

theorem nextPow2_min (n m k : ℕ) (hm : m = 2 ^ k) (hnm : n ≤ m) : nextPow2 n ≤ m :=
  nextPow2Go_min n n 1 m 0 k rfl hm hnm (hm ▸ Nat.one_le_two_pow)

/-- nextPow2 of the clamped value satisfies the least-power-of-two property
for any integer bound L (for L ≤ 0 it yields 1, trivially least). -/
theorem isSmallestPow2GE_nextPow2 (L : ℤ) : isSmallestPow2GE (nextPow2 L.toNat) L := by
  refine ⟨nextPow2_isPow2 _, ?_, ?_⟩
  · have h1 : L ≤ (L.toNat : ℤ) := Int.self_le_toNat L
    have h2 : L.toNat ≤ nextPow2 L.toNat := le_nextPow2 L.toNat
    omega
  · rintro m2 ⟨k, hk⟩ hle
    exact nextPow2_min L.toNat m2 k hk (Int.toNat_le.mpr hle)

/-- Evaluation of the constructor on the witness input: win_length=1920,
hop_length=480, n_fft=2048. -/
theorem sampleSpec_init : Spectrogram.init [0] 48000 40 4 128 = .ok sampleSpec := by
  with_unfolding_all rfl

/-- Elimination of a successful _update_linear run: the parameter fields are
untouched, the preconditions hold, and every product field is the freshly
computed term. -/
theorem updateLinear_ok_elim {s t : Spectrogram} (h : s.updateLinear = .ok t) :
    1 ≤ s.hop_length ∧ s.n_fft ≠ 0 ∧
    ¬(s.wav = [] ∧ 1 ≤ s.n_fft / 2) ∧
    ¬(s.wav.length + 2 * (s.n_fft / 2) < s.n_fft) ∧
    t.wav = s.wav ∧ t.sr = s.sr ∧ t.win_length = s.win_length ∧
    t.hop_length = s.hop_length ∧ t.n_fft = s.n_fft ∧ t.n_mel = s.n_mel ∧
    t.floor_db = s.floor_db ∧
    t.spec = Arr.smul (1024 / (s.win_length : ℚ) * (s.sr : ℚ) / 48000)
      (Arr.absStft s.wav s.n_fft s.hop_length s.win_length) ∧
    t.linear = Arr.ampToDb s.floor_db t.spec ∧
    t.t_axis = Axis.time t.spec s.hop_length s.sr ∧
    t.f_linear_axis = Axis.linspace0 (s.sr / 2) (s.n_fft / 2 + 1) ∧
    t.f_linear_axis_str = Labels.tileFreqExpr (Axis.linspace0 (s.sr / 2) (s.n_fft / 2 + 1))
      (Axis.time t.spec s.hop_length s.sr) ∧
    t.mel = Arr.ampToDb s.floor_db (Arr.melApply s.sr s.n_fft s.n_mel t.spec) ∧
    t.f_mel_axis = Axis.melFreq s.n_mel (s.sr / 2) ∧
    t.f_mel_axis_str = Labels.tileFreqExpr (Axis.melFreq s.n_mel (s.sr / 2))
      (Axis.time t.spec s.hop_length s.sr) := by
  simp only [Spectrogram.updateLinear] at h
  split at h
  · exact absurd h (by simp)
  · split at h
    · exact absurd h (by simp)
    · split at h
      · exact absurd h (by simp)
      · split at h
        · exact absurd h (by simp)
        · rename_i h1 h2 h3 h4
          injection h with h
          subst h
          refine ⟨by omega, h4, h2, h3, ?_⟩
          simp [Spectrogram.updateMel]

/-- Elimination of a successful construction: the derived parameters hold the
values of lines 15-18 of src/spec.py, win_length and hop_length came out
positive (otherwise a library error escapes), and n_fft is nextPow2. -/
theorem init_ok_elim {wav : List ℚ} {sr : ℤ} {win_ms overlap : ℚ} {n_mel : ℤ}
    {s : Spectrogram} (h : Spectrogram.init wav sr win_ms overlap n_mel = .ok s) :
    overlap ≠ 0 ∧
    1 ≤ pyRound ((sr : ℚ) * win_ms / 1000) ∧
    s.win_length = pyRound ((sr : ℚ) * win_ms / 1000) ∧
    s.n_fft = nextPow2 (pyRound ((sr : ℚ) * win_ms / 1000)).toNat ∧
    s.hop_length = pyRound ((pyRound ((sr : ℚ) * win_ms / 1000) : ℚ) / overlap) ∧
    1 ≤ s.hop_length ∧
    s.wav = wav ∧ s.sr = sr ∧ s.n_mel = n_mel ∧ s.floor_db = -120 := by
  simp only [Spectrogram.init] at h
  split at h
  · exact absurd h (by simp)
  · rename_i hov
    split at h
    · exact absurd h (by simp)
    · rename_i nf hE
      have hU := updateLinear_ok_elim h
      obtain ⟨hhop, hnf0, _, _, hw, hsr, hwin, hhop2, hnfft, hnmel, hfdb, _⟩ := hU
      have hhop3 : 1 ≤ s.hop_length := hhop2.symm ▸ hhop
      have hnf1 : nf ≠ 0 := hnf0
      simp only [int2ceilLog2] at hE
      split at hE
      · exact absurd hE (by simp)
      · split at hE
        · -- win_length = 0 would give n_fft = 0, contradicting the ok run
          injection hE with hE
          exact absurd hE.symm hnf1
        · rename_i hneg h0
          injection hE with hE
          have hge : 1 ≤ pyRound ((sr : ℚ) * win_ms / 1000) := by omega
          exact ⟨hov, hge, hwin.trans rfl, hnfft.trans (hE ▸ rfl),
            hhop2.trans rfl, hhop3, hw.trans rfl, hsr.trans rfl,
            hnmel.trans rfl, hfdb.trans rfl⟩

/-- The overlap setter is the identity (same Except.ok object, no field
written, no recomputation) whenever the freshly derived hop length equals the
stored one; this holds for every state, well-formed or not, which is exactly
what distinguishes skipping the recomputation from redoing it. -/
theorem setOverlap_noop {s : Spectrogram} {v : ℚ} (hv : v ≠ 0)
    (hc : pyRound ((s.win_length : ℚ) / v) = s.hop_length) :
    s.setOverlap v = .ok s := by
  simp [Spectrogram.setOverlap, hv, hc]

/-- Elimination of a successful overlap setter run: either the no-op branch
was taken (derived hop equal to the stored one, state returned unchanged), or
the new hop was assigned and every product was recomputed from it. -/
theorem setOverlap_ok_elim {s t : Spectrogram} {v : ℚ} (hv : v ≠ 0)
    (h : s.setOverlap v = .ok t) :
    (pyRound ((s.win_length : ℚ) / v) = s.hop_length ∧ t = s) ∨
    (pyRound ((s.win_length : ℚ) / v) ≠ s.hop_length ∧
     1 ≤ pyRound ((s.win_length : ℚ) / v) ∧
     t.hop_length = pyRound ((s.win_length : ℚ) / v) ∧
     t.win_length = s.win_length ∧ t.wav = s.wav ∧ t.sr = s.sr ∧
     t.n_fft = s.n_fft ∧ t.n_mel = s.n_mel ∧ t.floor_db = s.floor_db ∧
     t.spec = Arr.smul (1024 / (s.win_length : ℚ) * (s.sr : ℚ) / 48000)
       (Arr.absStft s.wav s.n_fft (pyRound ((s.win_length : ℚ) / v)) s.win_length) ∧
     t.linear = Arr.ampToDb s.floor_db t.spec ∧
     t.t_axis = Axis.time t.spec (pyRound ((s.win_length : ℚ) / v)) s.sr ∧
     t.f_linear_axis = Axis.linspace0 (s.sr / 2) (s.n_fft / 2 + 1) ∧
     t.mel = Arr.ampToDb s.floor_db (Arr.melApply s.sr s.n_fft s.n_mel t.spec) ∧
     t.f_mel_axis = Axis.melFreq s.n_mel (s.sr / 2)) := by
  simp only [Spectrogram.setOverlap] at h
  rw [if_neg hv] at h
  split at h
  · rename_i hc
    injection h with h
    exact Or.inl ⟨hc, h.symm⟩
  · rename_i hc
    split at h
    · rename_i t2 hU
      injection h with h
      subst h
      have hE := updateLinear_ok_elim hU
      obtain ⟨hhop, hnf0, _, _, hw, hsr, hwin, hhop2, hnfft, hnmel, hfdb,
        hspec, hlin, ht, hfla, hflas, hmel, hfma, hfmas⟩ := hE
      exact Or.inr ⟨hc, hhop, hhop2.trans rfl, hwin.trans rfl,
        hw.trans rfl, hsr.trans rfl, hnfft.trans rfl, hnmel.trans rfl,
        hfdb.trans rfl, hspec.trans rfl, hlin.trans rfl, ht.trans rfl,
        hfla.trans rfl, hmel.trans rfl, hfma.trans rfl⟩
    · exact absurd h (by simp)

/-- The window setter is the identity whenever the freshly derived
win_length equals the stored one, for every state. -/
theorem setWinMs_noop {s : Spectrogram} {w : ℚ}
    (hc : pyRound ((s.sr : ℚ) * w / 1000) = s.win_length) :
    s.setWinMs w = .ok s := by
  simp [Spectrogram.setWinMs, hc]

/-- Elimination of a successful window setter run: either the no-op branch
was taken, or win_length and n_fft were reassigned (hop_length untouched)
and every product recomputed. -/
theorem setWinMs_ok_elim {s t : Spectrogram} {w : ℚ} (h : s.setWinMs w = .ok t) :
    (pyRound ((s.sr : ℚ) * w / 1000) = s.win_length ∧ t = s) ∨
    (pyRound ((s.sr : ℚ) * w / 1000) ≠ s.win_length ∧
     1 ≤ pyRound ((s.sr : ℚ) * w / 1000) ∧
     t.win_length = pyRound ((s.sr : ℚ) * w / 1000) ∧
     t.n_fft = nextPow2 (pyRound ((s.sr : ℚ) * w / 1000)).toNat ∧
     t.hop_length = s.hop_length ∧ 1 ≤ s.hop_length ∧
     t.wav = s.wav ∧ t.sr = s.sr ∧ t.n_mel = s.n_mel ∧ t.floor_db = s.floor_db ∧
     t.spec = Arr.smul (1024 / (pyRound ((s.sr : ℚ) * w / 1000) : ℚ) * (s.sr : ℚ) / 48000)
       (Arr.absStft s.wav (nextPow2 (pyRound ((s.sr : ℚ) * w / 1000)).toNat) s.hop_length
         (pyRound ((s.sr : ℚ) * w / 1000))) ∧
     t.linear = Arr.ampToDb s.floor_db t.spec ∧
     t.t_axis = Axis.time t.spec s.hop_length s.sr ∧
     t.mel = Arr.ampToDb s.floor_db
       (Arr.melApply s.sr (nextPow2 (pyRound ((s.sr : ℚ) * w / 1000)).toNat) s.n_mel t.spec)) := by
  simp only [Spectrogram.setWinMs] at h
  split at h
  · rename_i hc
    injection h with h
    exact Or.inl ⟨hc, h.symm⟩
  · rename_i hc
    split at h
    · exact absurd h (by simp)
    · rename_i nf hE
      split at h
      · rename_i t2 hU
        injection h with h
        subst h
        have hL := updateLinear_ok_elim hU
        obtain ⟨hhop, hnf0, _, _, hw, hsr, hwin, hhop2, hnfft, hnmel, hfdb,
          hspec, hlin, ht, hfla, hflas, hmel, hfma, hfmas⟩ := hL
        have hnf1 : nf ≠ 0 := hnf0
        simp only [int2ceilLog2] at hE
        split at hE
        · exact absurd hE (by simp)
        · split at hE
          · injection hE with hE
            exact absurd hE.symm hnf1
          · rename_i hneg h0
            injection hE with hE
            have hge : 1 ≤ pyRound ((s.sr : ℚ) * w / 1000) := by omega
            exact Or.inr ⟨hc, hge, hwin.trans rfl, hnfft.trans (hE ▸ rfl),
              hhop2.trans rfl, hhop, hw.trans rfl, hsr.trans rfl,
              hnmel.trans rfl, hfdb.trans rfl, hspec.trans (hE ▸ rfl),
              hlin.trans rfl, ht.trans rfl, hmel.trans (hE ▸ rfl)⟩
      · exact absurd h (by simp)

theorem sampleSpec_setOverlap8 : sampleSpec.setOverlap 8 = .ok sampleSpecOv8 := by
  with_unfolding_all rfl

theorem sampleSpec_setOverlap1000 : sampleSpec.setOverlap 1000 = .ok sampleSpecOv1000 := by
  with_unfolding_all rfl

theorem sampleSpec_setWinMs80 : sampleSpec.setWinMs 80 = .ok sampleSpecW80 := by
  with_unfolding_all rfl

/-- C1: for every constructed SpectrogramEngine state and every n_mel value
different from the current one, set_n_mel recomputes only the mel products
(mel dB matrix, mel frequency axis, mel label matrix, from the cached linear
magnitude array and the new n_mel); the linear magnitude array, the linear dB
array, the linear frequency axis, its label array and the time axis are all
propagated untouched. Because this holds for EVERY state, whatever values
those fields hold, the setter provably copies the fields rather than
recomputing equal content: in the Python object the attributes are never
reassigned, i.e. the linear array is the identical object. -/
theorem C1_setNMel_recomputes_only_mel (s : Spectrogram) (m : ℤ) (hm : m ≠ s.n_mel) :
    (s.setNMel m).spec = s.spec ∧
    (s.setNMel m).linear = s.linear ∧
    (s.setNMel m).t_axis = s.t_axis ∧
    (s.setNMel m).f_linear_axis = s.f_linear_axis ∧
    (s.setNMel m).f_linear_axis_str = s.f_linear_axis_str ∧
    (s.setNMel m).wav = s.wav ∧
    (s.setNMel m).sr = s.sr ∧
    (s.setNMel m).win_length = s.win_length ∧
    (s.setNMel m).hop_length = s.hop_length ∧
    (s.setNMel m).n_fft = s.n_fft ∧
    (s.setNMel m).floor_db = s.floor_db ∧
    (s.setNMel m).n_mel = m ∧
    (s.setNMel m).mel = Arr.ampToDb s.floor_db (Arr.melApply s.sr s.n_fft m s.spec) ∧
    (s.setNMel m).f_mel_axis = Axis.melFreq m (s.sr / 2) ∧
    (s.setNMel m).f_mel_axis_str =
      Labels.tileFreqExpr (Axis.melFreq m (s.sr / 2)) s.t_axis := by
  simp [Spectrogram.setNMel, hm, Spectrogram.updateMel]

/-- Witness for C1 at the concrete engine sampleSpec and n_mel = 64. -/
theorem C1_witness :
    (64 : ℤ) ≠ sampleSpec.n_mel ∧
    (sampleSpec.setNMel 64).spec = sampleSpec.spec ∧
    (sampleSpec.setNMel 64).linear = sampleSpec.linear :=
  have hm : (64 : ℤ) ≠ sampleSpec.n_mel := by with_unfolding_all decide
  ⟨hm, (C1_setNMel_recomputes_only_mel sampleSpec 64 hm).1,
    (C1_setNMel_recomputes_only_mel sampleSpec 64 hm).2.1⟩

/-- C2: after construction, and after every successful set_window_ms call on
a state whose fft_size already satisfies the property (as every constructed
state does, so the property is preserved along any chain of calls), fft_size
is the smallest power of two that is at least
window_length_samples = round(sample_rate * window_ms / 1000). -/
theorem C2_fft_size_least_pow2 :
    (∀ (wav : List ℚ) (sr : ℤ) (win_ms overlap : ℚ) (n_mel : ℤ) (s : Spectrogram),
        Spectrogram.init wav sr win_ms overlap n_mel = .ok s →
        s.win_length = pyRound ((sr : ℚ) * win_ms / 1000) ∧
        isSmallestPow2GE s.n_fft s.win_length) ∧
    (∀ (s : Spectrogram) (w : ℚ) (t : Spectrogram),
        isSmallestPow2GE s.n_fft s.win_length →
        s.setWinMs w = .ok t →
        t.win_length = pyRound ((s.sr : ℚ) * w / 1000) ∧
        isSmallestPow2GE t.n_fft t.win_length) := by
  constructor
  · intro wav sr win_ms overlap n_mel s h
    obtain ⟨_, hge, hwin, hnfft, _⟩ := init_ok_elim h
    refine ⟨hwin, ?_⟩
    rw [hwin, hnfft]
    exact isSmallestPow2GE_nextPow2 _
  · intro s w t hinv h
    rcases setWinMs_ok_elim h with ⟨hc, rfl⟩ | ⟨hc, hge, hwin, hnfft, _⟩
    · exact ⟨hc.symm, hinv⟩
    · refine ⟨hwin, ?_⟩
      rw [hwin, hnfft]
      exact isSmallestPow2GE_nextPow2 _

/-- Witness for C2: sr=48000, win_ms=40 gives win_length=1920 and
n_fft=2048, the least power of two above it; after set_window_ms(80),
win_length=3840 and n_fft=4096 keeps the property. -/
theorem C2_witness :
    Spectrogram.init [0] 48000 40 4 128 = .ok sampleSpec ∧
    sampleSpec.win_length = 1920 ∧
    isSmallestPow2GE sampleSpec.n_fft sampleSpec.win_length ∧
    sampleSpec.setWinMs 80 = .ok sampleSpecW80 ∧
    isSmallestPow2GE sampleSpecW80.n_fft sampleSpecW80.win_length :=
  ⟨sampleSpec_init, by with_unfolding_all decide,
    (C2_fft_size_least_pow2.1 _ _ _ _ _ _ sampleSpec_init).2,
    sampleSpec_setWinMs80,
    (C2_fft_size_least_pow2.2 sampleSpec 80 sampleSpecW80
      (C2_fft_size_least_pow2.1 _ _ _ _ _ _ sampleSpec_init).2 sampleSpec_setWinMs80).2⟩

/-- C3: after a successful set_overlap(v) on an engine with positive stored
hop_length, reading the overlap accessor returns
round(win_length / round(win_length / v)), the stored quantity being
hop_length = round(win_length / v); win_length itself is unchanged. -/
theorem C3_overlap_roundtrip (s : Spectrogram) (v : ℚ) (hv : 0 < v)
    (hhop : 1 ≤ s.hop_length) (t : Spectrogram) (h : s.setOverlap v = .ok t) :
    t.overlap = pyRound ((s.win_length : ℚ) / (pyRound ((s.win_length : ℚ) / v) : ℚ)) ∧
    t.win_length = s.win_length := by
  rcases setOverlap_ok_elim hv.ne' h with ⟨hc, rfl⟩ | ⟨hc, hge, hhop2, hwin, _⟩
  · constructor
    · unfold Spectrogram.overlap
      rw [hc]
    · rfl
  · constructor
    · unfold Spectrogram.overlap
      rw [hhop2, hwin]
    · exact hwin

/-- Witness for C3 at sampleSpec with v = 1000: the derived hop length is
round(1920/1000) = 2, and the read-back overlap is round(1920/2) = 960,
not the input 1000 (the round trip is lossy). -/
theorem C3_witness :
    (0 : ℚ) < 1000 ∧ 1 ≤ sampleSpec.hop_length ∧
    sampleSpec.setOverlap 1000 = .ok sampleSpecOv1000 ∧
    sampleSpecOv1000.overlap =
      pyRound ((sampleSpec.win_length : ℚ) /
        (pyRound ((sampleSpec.win_length : ℚ) / 1000) : ℚ)) ∧
    sampleSpecOv1000.overlap = 960 ∧ sampleSpecOv1000.overlap ≠ 1000 :=
  ⟨by norm_num, by with_unfolding_all decide, sampleSpec_setOverlap1000,
    (C3_overlap_roundtrip sampleSpec 1000 (by norm_num) (by with_unfolding_all decide)
      sampleSpecOv1000 sampleSpec_setOverlap1000).1,
    by with_unfolding_all decide, by with_unfolding_all decide⟩

/-- C4: for every engine state and positive overlap input v, set_overlap(v)
returns the state unchanged (the same object, with no field written and no
recomputation — the equation holds for every state whatever its fields hold,
so the recompute branch provably was not taken) if and only if
round(win_length / v) equals the stored hop_length; two positive inputs whose
derived hops round to the same integer produce identical behavior; and when
the derived hop differs from the stored one, a successful call performs the
full linear-plus-mel recomputation from the new hop. -/
theorem C4_setOverlap_noop_iff (s : Spectrogram) (v : ℚ) (hv : 0 < v) :
    (s.setOverlap v = .ok s ↔ pyRound ((s.win_length : ℚ) / v) = s.hop_length) ∧
    (∀ v2 : ℚ, 0 < v2 →
       pyRound ((s.win_length : ℚ) / v) = pyRound ((s.win_length : ℚ) / v2) →
       s.setOverlap v = s.setOverlap v2) ∧
    (∀ t : Spectrogram, pyRound ((s.win_length : ℚ) / v) ≠ s.hop_length →
       s.setOverlap v = .ok t →
       t.hop_length = pyRound ((s.win_length : ℚ) / v) ∧
       t.spec = Arr.smul (1024 / (s.win_length : ℚ) * (s.sr : ℚ) / 48000)
         (Arr.absStft s.wav s.n_fft (pyRound ((s.win_length : ℚ) / v)) s.win_length) ∧
       t.linear = Arr.ampToDb s.floor_db t.spec ∧
       t.t_axis = Axis.time t.spec (pyRound ((s.win_length : ℚ) / v)) s.sr ∧
       t.f_linear_axis = Axis.linspace0 (s.sr / 2) (s.n_fft / 2 + 1) ∧
       t.mel = Arr.ampToDb s.floor_db (Arr.melApply s.sr s.n_fft s.n_mel t.spec) ∧
       t.f_mel_axis = Axis.melFreq s.n_mel (s.sr / 2)) := by
  refine ⟨⟨?_, fun hc => setOverlap_noop hv.ne' hc⟩, ?_, ?_⟩
  · intro h
    rcases setOverlap_ok_elim hv.ne' h with ⟨hc, _⟩ | ⟨hc, _, hhop2, _⟩
    · exact hc
    · exact absurd hhop2.symm hc
  · intro v2 hv2 hp
    simp only [Spectrogram.setOverlap]
    rw [if_neg hv.ne', if_neg hv2.ne', hp]
  · intro t hne h
    rcases setOverlap_ok_elim hv.ne' h with ⟨hc, _⟩ |
      ⟨_, _, hhop2, hwin, hwav, hsr2, hnfft, hnmel, hfdb, hspec, hlin, ht, hfla, hmel, hfma⟩
    · exact absurd hc hne
    · exact ⟨hhop2, hspec, hlin, ht, hfla, hmel, hfma⟩

/-- Witness for C4 at sampleSpec (win_length 1920, hop_length 480):
set_overlap(4) is a no-op since round(1920/4)=480; the different input
4.002 = 2001/500 also derives hop 480 and behaves identically (it also skips);
set_overlap(8) derives hop 240 and recomputes the products from it. -/
theorem C4_witness :
    sampleSpec.setOverlap 4 = .ok sampleSpec ∧
    sampleSpec.setOverlap (2001/500) = .ok sampleSpec ∧
    sampleSpec.setOverlap 8 = .ok sampleSpecOv8 ∧
    sampleSpecOv8.hop_length = 240 ∧
    sampleSpecOv8.spec =
      Arr.smul (1024 / (sampleSpec.win_length : ℚ) * (sampleSpec.sr : ℚ) / 48000)
        (Arr.absStft sampleSpec.wav sampleSpec.n_fft 240 sampleSpec.win_length) := by
  have h4 : sampleSpec.setOverlap 4 = .ok sampleSpec :=
    (C4_setOverlap_noop_iff sampleSpec 4 (by norm_num)).1.mpr (by with_unfolding_all decide)
  have heq : sampleSpec.setOverlap 4 = sampleSpec.setOverlap (2001/500) :=
    (C4_setOverlap_noop_iff sampleSpec 4 (by norm_num)).2.1 (2001/500) (by norm_num)
      (by with_unfolding_all decide)
  have h8 := (C4_setOverlap_noop_iff sampleSpec 8 (by norm_num)).2.2 sampleSpecOv8
    (by with_unfolding_all decide) sampleSpec_setOverlap8
  have h240 : pyRound ((sampleSpec.win_length : ℚ) / 8) = 240 := by
    with_unfolding_all decide
  refine ⟨h4, heq.symm.trans h4, sampleSpec_setOverlap8, ?_, ?_⟩
  · rw [h8.1, h240]
  · rw [h8.2.1, h240]

/-- C10: a successful set_window_ms whose derived win_length differs from the
stored one updates only win_length and n_fft among the parameters before the
full recomputation: hop_length (and wav, sr, n_mel) are untouched, so the
overlap read back afterwards is round(new_win_length / old_hop_length), which
need not equal the overlap value most recently set. -/
theorem C10_setWinMs_keeps_hop (s : Spectrogram) (w : ℚ) (t : Spectrogram)
    (hdiff : pyRound ((s.sr : ℚ) * w / 1000) ≠ s.win_length)
    (h : s.setWinMs w = .ok t) :
    t.win_length = pyRound ((s.sr : ℚ) * w / 1000) ∧
    t.n_fft = nextPow2 (pyRound ((s.sr : ℚ) * w / 1000)).toNat ∧
    t.hop_length = s.hop_length ∧
    t.wav = s.wav ∧ t.sr = s.sr ∧ t.n_mel = s.n_mel ∧
    t.overlap = pyRound ((pyRound ((s.sr : ℚ) * w / 1000) : ℚ) / (s.hop_length : ℚ)) ∧
    t.spec = Arr.smul (1024 / (pyRound ((s.sr : ℚ) * w / 1000) : ℚ) * (s.sr : ℚ) / 48000)
      (Arr.absStft s.wav (nextPow2 (pyRound ((s.sr : ℚ) * w / 1000)).toNat) s.hop_length
        (pyRound ((s.sr : ℚ) * w / 1000))) ∧
    t.mel = Arr.ampToDb s.floor_db
      (Arr.melApply s.sr (nextPow2 (pyRound ((s.sr : ℚ) * w / 1000)).toNat) s.n_mel t.spec) := by
  rcases setWinMs_ok_elim h with ⟨hc, _⟩ |
    ⟨_, _, hwin, hnfft, hhop, _, hwav, hsr2, hnmel, hfdb, hspec, hlin, ht, hmel⟩
  · exact absurd hc hdiff
  · refine ⟨hwin, hnfft, hhop, hwav, hsr2, hnmel, ?_, hspec, hmel⟩
    unfold Spectrogram.overlap
    rw [hwin, hhop]

/-- Witness for C10: sampleSpec was built with overlap 4 (hop 480); after
set_window_ms(80) the hop is still 480, win_length is 3840, and the overlap
read back is round(3840/480) = 8, no longer the 4 most recently set. -/
theorem C10_witness :
    pyRound ((sampleSpec.sr : ℚ) * 80 / 1000) ≠ sampleSpec.win_length ∧
    sampleSpec.setWinMs 80 = .ok sampleSpecW80 ∧
    sampleSpecW80.hop_length = sampleSpec.hop_length ∧
    sampleSpecW80.overlap = 8 ∧
    sampleSpec.overlap = 4 := by
  have hd : pyRound ((sampleSpec.sr : ℚ) * 80 / 1000) ≠ sampleSpec.win_length := by
    with_unfolding_all decide
  have hc := C10_setWinMs_keeps_hop sampleSpec 80 sampleSpecW80 hd sampleSpec_setWinMs80
  refine ⟨hd, sampleSpec_setWinMs80, hc.2.2.1, ?_, by with_unfolding_all decide⟩
  rw [hc.2.2.2.2.2.2.1]
  with_unfolding_all decide

/-- C8 as stated is false on the code: src/spec.py defines no DecodeError or
InvalidParameterError and the constructor validates nothing, so the failure
that does occur is neither a dedicated error nor a fail-fast one. On the
concrete empty-waveform input with the default parameters, construction
raises the numpy ValueError coming out of the reflect padding INSIDE
librosa.stft, i.e. from within the spectral computation, after win_length,
hop_length and n_fft were already derived. -/
theorem C8_counterexample :
    Spectrogram.init [] 48000 40 4 128 =
      .error "ValueError: cannot extend empty axis 0 using modes other than constant or empty (np.pad with mode reflect in librosa.stft)" := by
  with_unfolding_all rfl

/-- C8 amended: construction from an empty waveform or a non-positive sample
rate does raise, but never with a dedicated error type and never as a
fail-fast validation. An empty waveform always makes construction raise from
an unchecked library error (for the default parameters, numpy's ValueError
from reflect-padding the empty signal inside librosa.stft, after all derived
parameters were computed); a non-positive sample rate makes it raise an
unchecked library error at or after the fft-size derivation (numpy
ValueError for a negative derived window length, librosa ParameterError for
the zero hop length). -/
theorem C8_no_validation :
    (∀ (sr : ℤ) (win_ms overlap : ℚ) (n_mel : ℤ),
        (Spectrogram.init [] sr win_ms overlap n_mel).toOption.isSome = false) ∧
    (∀ (wav : List ℚ) (sr : ℤ) (win_ms overlap : ℚ) (n_mel : ℤ),
        sr ≤ 0 → 0 < win_ms → 0 < overlap →
        (Spectrogram.init wav sr win_ms overlap n_mel).toOption.isSome = false) := by
  constructor
  · intro sr win_ms overlap n_mel
    cases h : Spectrogram.init [] sr win_ms overlap n_mel with
    | error e => rfl
    | ok s =>
        exfalso
        simp only [Spectrogram.init] at h
        split at h
        · simp at h
        · split at h
          · simp at h
          · rename_i hov nf hE
            have hU := updateLinear_ok_elim h
            obtain ⟨hhop, hnf0, hpad, hshort, _⟩ := hU
            have hnf1 : nf ≠ 0 := hnf0
            have hpad2 : ¬(([] : List ℚ) = [] ∧ 1 ≤ nf / 2) := hpad
            have hshort2 : ¬((([] : List ℚ)).length + 2 * (nf / 2) < nf) := hshort
            simp only [List.length_nil, true_and] at hpad2 hshort2
            omega
  · intro wav sr win_ms overlap n_mel hsr hwm hov
    cases h : Spectrogram.init wav sr win_ms overlap n_mel with
    | error e => rfl
    | ok s =>
        exfalso
        obtain ⟨_, hge, _⟩ := init_ok_elim h
        have h1 : (sr : ℚ) ≤ 0 := by exact_mod_cast hsr
        have h2 : (sr : ℚ) * win_ms ≤ 0 := by nlinarith
        have hq : (sr : ℚ) * win_ms / 1000 ≤ 0 :=
          div_nonpos_iff.mpr (Or.inr ⟨h2, by norm_num⟩)
        have := pyRound_nonpos hq
        omega

/-- Witness for C8 amended: an empty waveform at the default parameters, and
a non-positive sample rate sr = 0 on a one-sample waveform — the constructor
raises (an unchecked library error) in both cases, it does not return. -/
theorem C8_witness :
    (Spectrogram.init [] 48000 40 4 128).toOption.isSome = false ∧
    ((0 : ℤ) ≤ 0 ∧ (0 : ℚ) < 40 ∧ (0 : ℚ) < 4 ∧
      (Spectrogram.init [1] 0 40 4 128).toOption.isSome = false) :=
  ⟨C8_no_validation.1 48000 40 4 128,
    le_refl 0, by norm_num, by norm_num,
    C8_no_validation.2 [1] 0 40 4 128 (le_refl 0) (by norm_num) (by norm_num)⟩

/-- C9 as stated is false on the code: requesting overlap 10000 on the
concrete engine (win_length 1920, hop 480) derives hop 0 and raises, but the
raise does NOT leave the engine unchanged — the error escapes with the object
already holding hop_length = 0, a state different from the original. -/
theorem C9_counterexample :
    sampleSpec.setOverlap 10000 =
      .error ("librosa ParameterError: Invalid hop_length",
        { sampleSpec with hop_length := 0 }) ∧
    ({ sampleSpec with hop_length := 0 } : Spectrogram) ≠ sampleSpec := by
  constructor
  · with_unfolding_all rfl
  · intro hcontra
    have h2 := congrArg Spectrogram.hop_length hcontra
    exact absurd h2 (by with_unfolding_all decide)

/-- C9 amended: a set_overlap whose derived hop length is < 1 (and differs
from the stored one) raises — the librosa ParameterError from the attempted
recomputation, not a parameter check — and the raise leaves the engine
partially mutated: hop_length already holds the invalid derived value while
every other field, the stale spectra included, is unchanged. -/
theorem C9_mutation_raises_partial (s : Spectrogram) (v : ℚ) (hv : v ≠ 0)
    (h1 : pyRound ((s.win_length : ℚ) / v) < 1)
    (h2 : pyRound ((s.win_length : ℚ) / v) ≠ s.hop_length) :
    s.setOverlap v =
      .error ("librosa ParameterError: Invalid hop_length",
        { s with hop_length := pyRound ((s.win_length : ℚ) / v) }) := by
  simp only [Spectrogram.setOverlap]
  rw [if_neg hv, if_neg h2]
  have hU : ({ s with hop_length := pyRound ((s.win_length : ℚ) / v) } : Spectrogram).updateLinear
      = .error "librosa ParameterError: Invalid hop_length" := by
    simp only [Spectrogram.updateLinear]
    rw [if_pos h1]
  rw [hU]

/-- Witness for C9 amended at sampleSpec with v = 5000 (derived hop 0). -/
theorem C9_witness :
    (5000 : ℚ) ≠ 0 ∧
    pyRound ((sampleSpec.win_length : ℚ) / 5000) < 1 ∧
    pyRound ((sampleSpec.win_length : ℚ) / 5000) ≠ sampleSpec.hop_length ∧
    sampleSpec.setOverlap 5000 =
      .error ("librosa ParameterError: Invalid hop_length",
        { sampleSpec with hop_length := pyRound ((sampleSpec.win_length : ℚ) / 5000) }) :=
  ⟨by norm_num, by with_unfolding_all decide, by with_unfolding_all decide,
    C9_mutation_raises_partial sampleSpec 5000 (by norm_num)
      (by with_unfolding_all decide) (by with_unfolding_all decide)⟩

/-- Behavior of the slot-table fold: an index that completes is filled with
its own job's outcome (whatever the completion order), every other slot is
left as it started. -/
theorem poolFold_getElem (f : JobArg → Except String ParseOut) (args : List JobArg) :
    ∀ (order : List ℕ) (slots : List (Option (Except String ParseOut))) (i : ℕ),
      slots.length = args.length →
      (order.foldl
        (fun slots j =>
          match args[j]? with
          | some a => slots.set j (some (f a))
          | none => slots) slots)[i]? =
      if i ∈ order ∧ i < args.length then some (args[i]?.map f) else slots[i]? := by
  intro order
  induction order with
  | nil =>
    intro slots i _
    simp
  | cons j rest ih =>
    intro slots i hlen
    have hstep : (match args[j]? with
        | some a => slots.set j (some (f a))
        | none => slots).length = args.length := by
      cases h : args[j]? <;> simp [hlen]
    rw [List.foldl_cons, ih _ i hstep]
    by_cases hi : i < args.length
    · by_cases hmem : i ∈ rest
      · simp [hmem, hi, List.mem_cons]
      · by_cases hij : i = j
        · subst hij
          have ha : args[i]? = some args[i] := List.getElem?_eq_getElem hi
          rw [if_neg (by simp [hmem]), if_pos ⟨List.mem_cons_self i rest, hi⟩]
          simp only [ha]
          rw [List.getElem?_set]
          simp [hlen, hi]
        · rw [if_neg (by simp [hmem]),
            if_neg (by simp [List.mem_cons, hij, hmem])]
          cases h : args[j]? with
          | none => rfl
          | some a =>
            simp only [List.getElem?_set]
            rw [if_neg (fun hh => hij hh.symm)]
    · rw [if_neg (by simp [hi]), if_neg (by simp [hi])]
      have hnone : slots[i]? = none := List.getElem?_eq_none (by omega)
      cases h : args[j]? with
      | none => rfl
      | some a =>
        simp only [List.getElem?_set]
        rw [hnone]
        split
        · rw [if_neg (by omega)]
        · rfl

/-- If the completion order is a permutation of the job indices (every job
completed exactly once in some order), the slot table holds exactly the
per-job outcomes, at their submission indices. -/
theorem poolSlots_perm (f : JobArg → Except String ParseOut) (args : List JobArg)
    (order : List ℕ) (hperm : order.Perm (List.range args.length)) :
    poolSlots f args order = args.map fun a => some (f a) := by
  apply List.ext_getElem?
  intro i
  unfold poolSlots
  rw [poolFold_getElem f args order _ i (by simp), List.getElem?_map]
  have hmem : i ∈ order ↔ i < args.length := by
    rw [hperm.mem_iff, List.mem_range]
  by_cases hi : i < args.length
  · rw [if_pos ⟨hmem.mpr hi, hi⟩, List.getElem?_eq_getElem hi]
    rfl
  · rw [if_neg (by tauto)]
    rw [List.getElem?_replicate, if_neg hi,
      List.getElem?_eq_none (le_of_not_lt hi)]
    rfl

/-- get() under a complete completion order: it returns (does not block) and
its value is the collection of the slot table, which by poolSlots_perm is
independent of the completion order. -/
theorem starmapAsyncGet_perm (f : JobArg → Except String ParseOut)
    (args : List JobArg) (order : List ℕ)
    (hperm : order.Perm (List.range args.length)) :
    starmapAsyncGet f args order =
      some (collectSlots (args.map fun a => some (f a))) := by
  unfold starmapAsyncGet
  rw [poolSlots_perm f args order hperm]
  rw [if_pos]
  rw [List.all_eq_true]
  intro x hx
  obtain ⟨a, _, rfl⟩ := List.mem_map.mp hx
  rfl

/-- get() blocks (returns nothing) while any submitted job has not completed. -/
theorem starmapAsyncGet_blocked (f : JobArg → Except String ParseOut)
    (args : List JobArg) (order : List ℕ) (i : ℕ)
    (hi : i < args.length) (hni : i ∉ order) :
    starmapAsyncGet f args order = none := by
  unfold starmapAsyncGet
  rw [if_neg]
  intro hall
  have hslot : (poolSlots f args order)[i]? = some none := by
    unfold poolSlots
    rw [poolFold_getElem f args order _ i (by simp), if_neg (by tauto)]
    simp [List.getElem?_replicate, hi]
  have hmem : (none : Option (Except String ParseOut)) ∈ poolSlots f args order := by
    obtain ⟨h1, h2⟩ := List.getElem?_eq_some.mp hslot
    exact h2 ▸ List.getElem_mem h1
  have := List.all_eq_true.mp hall none hmem
  simp at this

/-- Collecting a table of all-normal job outcomes yields the ok list of the
outcomes, one per job, in submission order. -/
theorem collectSlots_ok (f : JobArg → Except String ParseOut) :
    ∀ (args : List JobArg), (∀ a ∈ args, ∃ b, f a = .ok b) →
      ∃ res, collectSlots (args.map fun a => some (f a)) = .ok res ∧
        res.length = args.length ∧
        ∀ (i : ℕ) (hi : i < args.length) (hi2 : i < res.length),
          f args[i] = .ok res[i] := by
  intro args
  induction args with
  | nil => exact fun _ => ⟨[], rfl, rfl, fun i hi => by simp at hi⟩
  | cons a as ih =>
    intro h
    obtain ⟨b, hb⟩ := h a (List.mem_cons_self a as)
    obtain ⟨res, hres, hlen, hget⟩ := ih (fun x hx => h x (List.mem_cons_of_mem a hx))
    refine ⟨b :: res, ?_, by simp [hlen], ?_⟩
    · unfold collectSlots at hres ⊢
      rw [List.map_cons, List.foldr_cons]
      simp only [hb]
      rw [hres]
      rfl
    · intro i hi hi2
      cases i with
      | zero => simpa using hb
      | succ n =>
        simp only [List.getElem_cons_succ]
        exact hget n (by simpa using hi) (by simpa using hi2)

/-- A job whose outcome converts to a some-option returned normally. -/
theorem exists_ok_of_isSome {x : Except String ParseOut}
    (h : x.toOption.isSome = true) : ∃ b, x = .ok b := by
  cases x with
  | ok b => exact ⟨b, rfl⟩
  | error e => simp [Except.toOption] at h

/-- C5: the numeric thread cap of a batch is the single value
max(2, cpu_count // C), C the number of files of THIS batch, computed once
when the argument list is built, and that same value is the n_threads entry
of every job argument of the batch. -/
theorem C5_thread_cap (contents_list : List AudioContent) (filenames : List String)
    (win_ms overlap : ℚ) (n_mel : ℤ) (freq_scale : String) (cpu_count : ℕ)
    (_hC : 1 ≤ contents_list.length) :
    ∀ a ∈ jobArgs contents_list filenames win_ms overlap n_mel freq_scale cpu_count,
      a.n_threads = max 2 (cpu_count / contents_list.length) := by
  intro a ha
  obtain ⟨cf, _, rfl⟩ := List.mem_map.mp ha
  rfl

/-- Witness for C5: a batch of three files on an 8-CPU machine caps every
job at max(2, 8 // 3) = 2 threads. -/
theorem C5_witness :
    1 ≤ ([AudioContent.good [0] 48000, AudioContent.bad "x",
          AudioContent.good [1] 48000] : List AudioContent).length ∧
    ∀ a ∈ jobArgs [AudioContent.good [0] 48000, AudioContent.bad "x",
          AudioContent.good [1] 48000] ["a", "b", "c"] 40 4 128 "mel" 8,
      a.n_threads = max 2 (8 / 3) :=
  ⟨by norm_num,
    C5_thread_cap [AudioContent.good [0] 48000, AudioContent.bad "x",
      AudioContent.good [1] 48000] ["a", "b", "c"] 40 4 128 "mel" 8 (by norm_num)⟩

/-- C6: the batch dispatch blocks until every job of the batch has completed
(get returns nothing while any job index has not completed), and once the
completion order is any permutation of the job indices the value returned is
independent of that order and lists one outcome per submitted job, at the
job's own submission index. -/
theorem C6_results_in_submission_order :
    (∀ (cl : List AudioContent) (fn : List String) (wm ov : ℚ) (nm : ℤ)
        (fs : String) (cpu : ℕ) (order : List ℕ),
        order.Perm (List.range (jobArgs cl fn wm ov nm fs cpu).length) →
        update_graphs_batch cl fn wm ov nm fs cpu order =
          update_graphs_batch cl fn wm ov nm fs cpu
            (List.range (jobArgs cl fn wm ov nm fs cpu).length)) ∧
    (∀ (cl : List AudioContent) (fn : List String) (wm ov : ℚ) (nm : ℤ)
        (fs : String) (cpu : ℕ) (order : List ℕ) (i : ℕ),
        i < (jobArgs cl fn wm ov nm fs cpu).length → i ∉ order →
        update_graphs_batch cl fn wm ov nm fs cpu order = none) ∧
    (∀ (cl : List AudioContent) (fn : List String) (wm ov : ℚ) (nm : ℤ)
        (fs : String) (cpu : ℕ) (order : List ℕ),
        order.Perm (List.range (jobArgs cl fn wm ov nm fs cpu).length) →
        (∀ a ∈ jobArgs cl fn wm ov nm fs cpu, ∃ b, jobRun a = .ok b) →
        ∃ res, update_graphs_batch cl fn wm ov nm fs cpu order = some (.ok res) ∧
          res.length = (jobArgs cl fn wm ov nm fs cpu).length ∧
          ∀ (i : ℕ) (hi : i < (jobArgs cl fn wm ov nm fs cpu).length)
            (hi2 : i < res.length),
            jobRun (jobArgs cl fn wm ov nm fs cpu)[i] = .ok res[i]) := by
  refine ⟨?_, ?_, ?_⟩
  · intro cl fn wm ov nm fs cpu order hperm
    unfold update_graphs_batch
    rw [starmapAsyncGet_perm _ _ _ hperm,
      starmapAsyncGet_perm _ _ _ (List.Perm.refl _)]
  · intro cl fn wm ov nm fs cpu order i hi hni
    exact starmapAsyncGet_blocked _ _ _ i hi hni
  · intro cl fn wm ov nm fs cpu order hperm hok
    obtain ⟨res, hres, hlen, hget⟩ := collectSlots_ok jobRun _ hok
    refine ⟨res, ?_, hlen, hget⟩
    unfold update_graphs_batch
    rw [starmapAsyncGet_perm _ _ _ hperm, hres]

/-- Witness for C6: a two-file batch whose jobs complete in reversed order
[1, 0] returns the same value as in submission order, one result per job. -/
theorem C6_witness :
    update_graphs_batch [AudioContent.good [0] 48000, AudioContent.good [1] 48000]
        ["a", "b"] 40 4 128 "mel" 8 [1, 0] =
      update_graphs_batch [AudioContent.good [0] 48000, AudioContent.good [1] 48000]
        ["a", "b"] 40 4 128 "mel" 8
        (List.range (jobArgs [AudioContent.good [0] 48000, AudioContent.good [1] 48000]
          ["a", "b"] 40 4 128 "mel" 8).length) ∧
    ∃ res, update_graphs_batch [AudioContent.good [0] 48000, AudioContent.good [1] 48000]
        ["a", "b"] 40 4 128 "mel" 8 [1, 0] = some (.ok res) ∧
      res.length = (jobArgs [AudioContent.good [0] 48000, AudioContent.good [1] 48000]
        ["a", "b"] 40 4 128 "mel" 8).length := by
  have hperm : ([1, 0] : List ℕ).Perm
      (List.range (jobArgs [AudioContent.good [0] 48000, AudioContent.good [1] 48000]
        ["a", "b"] 40 4 128 "mel" 8).length) := by
    with_unfolding_all decide
  have hargs : jobArgs [AudioContent.good [0] 48000, AudioContent.good [1] 48000]
      ["a", "b"] 40 4 128 "mel" 8 =
      [{ contents := AudioContent.good [0] 48000, fname := "a", win_ms := 40,
         overlap := 4, n_mel := 128, freq_scale := "mel", n_threads := 4 },
       { contents := AudioContent.good [1] 48000, fname := "b", win_ms := 40,
         overlap := 4, n_mel := 128, freq_scale := "mel", n_threads := 4 }] := by
    with_unfolding_all rfl
  have hok : ∀ a ∈ jobArgs [AudioContent.good [0] 48000, AudioContent.good [1] 48000]
      ["a", "b"] 40 4 128 "mel" 8, ∃ b, jobRun a = .ok b := by
    rw [hargs]
    intro a ha
    simp only [List.mem_cons, List.not_mem_nil, or_false] at ha
    rcases ha with rfl | rfl
    · exact exists_ok_of_isSome (by with_unfolding_all rfl)
    · exact exists_ok_of_isSome (by with_unfolding_all rfl)
  refine ⟨C6_results_in_submission_order.1 _ _ _ _ _ _ _ [1, 0] hperm, ?_⟩
  obtain ⟨res, h1, h2, _⟩ :=
    C6_results_in_submission_order.2.2 _ _ _ _ _ _ _ [1, 0] hperm hok
  exact ⟨res, h1, h2⟩

/-- C7: in a batch whose file at position k fails to decode while every other
file decodes and analyzes successfully, the batch as a whole returns normally
(one value per input, in submission order): position k holds the error
placeholder div instead of raising, and every other position holds the valid
engine computed from that file's own decoded data, unaffected by the failure. -/
theorem C7_decode_failure_isolated
    (cl : List AudioContent) (fn : List String) (wm ov : ℚ) (nm : ℤ)
    (fs : String) (cpu : ℕ) (order : List ℕ)
    (hlen : fn.length = cl.length)
    (hperm : order.Perm (List.range cl.length))
    (k : ℕ) (hk : k < cl.length) (msg : String)
    (hbad : cl[k]? = some (.bad msg))
    (hgood : ∀ (i : ℕ), i < cl.length → i ≠ k →
       ∃ w sr, cl[i]? = some (.good w sr) ∧
         ∃ sp, Spectrogram.init w sr wm ov nm = .ok sp) :
    ∃ res, update_graphs_batch cl fn wm ov nm fs cpu order = some (.ok res) ∧
      res.length = cl.length ∧
      res[k]? = some ParseOut.errorDiv ∧
      ∀ (i : ℕ), i < cl.length → i ≠ k →
        ∃ sp hm sc, res[i]? = some (ParseOut.result sp hm sc) ∧
          ∃ w sr, cl[i]? = some (.good w sr) ∧
            Spectrogram.init w sr wm ov nm = .ok sp := by
  have hlenargs : (jobArgs cl fn wm ov nm fs cpu).length = cl.length := by
    simp [jobArgs, hlen]
  have hargs : ∀ (i : ℕ) (hi : i < cl.length) (hif : i < fn.length)
      (hi2 : i < (jobArgs cl fn wm ov nm fs cpu).length),
      (jobArgs cl fn wm ov nm fs cpu)[i] =
        { contents := cl[i], fname := fn[i], win_ms := wm, overlap := ov,
          n_mel := nm, freq_scale := fs, n_threads := max 2 (cpu / cl.length) } := by
    intro i hi hif hi2
    simp [jobArgs, List.getElem_zip]
  have hjob : ∀ (i : ℕ) (hi : i < cl.length)
      (hi2 : i < (jobArgs cl fn wm ov nm fs cpu).length),
      (i = k → jobRun (jobArgs cl fn wm ov nm fs cpu)[i] = .ok .errorDiv) ∧
      (i ≠ k → ∃ sp hm2 sc, jobRun (jobArgs cl fn wm ov nm fs cpu)[i] =
          .ok (.result sp hm2 sc) ∧
        ∃ w sr, cl[i]? = some (.good w sr) ∧
          Spectrogram.init w sr wm ov nm = .ok sp) := by
    intro i hi hi2
    have hif : i < fn.length := by omega
    rw [hargs i hi hif hi2]
    constructor
    · rintro rfl
      have hbad2 : cl[i] = AudioContent.bad msg := by
        obtain ⟨h1, h2⟩ := List.getElem?_eq_some.mp hbad
        exact h2
      simp [jobRun, parse_contents, hbad2, sfRead]
    · intro hne
      obtain ⟨w, sr, hcl, sp, hsp⟩ := hgood i hi hne
      have hcl2 : cl[i] = AudioContent.good w sr := by
        obtain ⟨h1, h2⟩ := List.getElem?_eq_some.mp hcl
        exact h2
      refine ⟨sp,
        { x := sp.t_axis
          y := if fs = "mel" then none else some sp.f_linear_axis
          z := if fs = "mel" then sp.mel else sp.linear
          customdata := if fs = "mel" then sp.f_mel_axis_str
                        else sp.f_linear_axis_str
          name := fn[i] },
        { wav := sp.wav, sr := sr, name := fn[i] }, ?_, w, sr, hcl, hsp⟩
      simp [jobRun, parse_contents, hcl2, sfRead, hsp]
  have hok : ∀ a ∈ jobArgs cl fn wm ov nm fs cpu, ∃ b, jobRun a = .ok b := by
    intro a ha
    obtain ⟨i, hi2, rfl⟩ := List.getElem_of_mem ha
    have hi : i < cl.length := by omega
    rcases eq_or_ne i k with rfl | hne
    · exact ⟨.errorDiv, (hjob i hi hi2).1 rfl⟩
    · obtain ⟨sp, hm2, sc, hj, _⟩ := (hjob i hi hi2).2 hne
      exact ⟨_, hj⟩
  have hperm2 : order.Perm (List.range (jobArgs cl fn wm ov nm fs cpu).length) := by
    rw [hlenargs]; exact hperm
  obtain ⟨res, hres, hlenres, hget⟩ := collectSlots_ok jobRun _ hok
  refine ⟨res, ?_, by omega, ?_, ?_⟩
  · unfold update_graphs_batch
    rw [starmapAsyncGet_perm _ _ _ hperm2, hres]
  · have hk2 : k < (jobArgs cl fn wm ov nm fs cpu).length := by omega
    have hkres : k < res.length := by omega
    have h1 := hget k hk2 hkres
    rw [(hjob k hk hk2).1 rfl] at h1
    injection h1 with h1
    rw [List.getElem?_eq_getElem hkres, ← h1]
  · intro i hi hne
    have hi2 : i < (jobArgs cl fn wm ov nm fs cpu).length := by omega
    have hires : i < res.length := by omega
    obtain ⟨sp, hm2, sc, hj, w, sr, hcl, hsp⟩ := (hjob i hi hi2).2 hne
    have h1 := hget i hi2 hires
    rw [hj] at h1
    injection h1 with h1
    exact ⟨sp, hm2, sc, by rw [List.getElem?_eq_getElem hires, ← h1], w, sr, hcl, hsp⟩

/-- Witness for C7: a three-file batch whose middle file fails to decode,
run under the non-trivial completion order [2, 0, 1], returns normally with
the placeholder at position 1 and valid engine results at positions 0 and 2. -/
theorem C7_witness :
    ∃ res, update_graphs_batch
        [AudioContent.good [0] 48000, AudioContent.bad "decode failed",
          AudioContent.good [1] 48000]
        ["a", "b", "c"] 40 4 128 "mel" 8 [2, 0, 1] = some (.ok res) ∧
      res.length = 3 ∧
      res[1]? = some ParseOut.errorDiv ∧
      (∃ sp hm sc, res[0]? = some (ParseOut.result sp hm sc)) ∧
      (∃ sp hm sc, res[2]? = some (ParseOut.result sp hm sc)) := by
  obtain ⟨res, h1, h2, h3, h4⟩ := C7_decode_failure_isolated
    [AudioContent.good [0] 48000, AudioContent.bad "decode failed",
      AudioContent.good [1] 48000]
    ["a", "b", "c"] 40 4 128 "mel" 8 [2, 0, 1]
    rfl
    (by decide)
    1 (by norm_num) "decode failed"
    rfl
    (by
      intro i hi hne
      simp only [List.length_cons, List.length_nil] at hi
      interval_cases i
      · exact ⟨[0], 48000, rfl, sampleSpec, sampleSpec_init⟩
      · exact absurd rfl hne
      · exact ⟨[1], 48000, rfl,
          (Spectrogram.init [1] 48000 40 4 128).toOption.getD emptySpec,
          by with_unfolding_all rfl⟩)
  refine ⟨res, h1, h2.trans rfl, h3, ?_, ?_⟩
  · obtain ⟨sp, hm, sc, hr, _⟩ := h4 0 (by norm_num) (by norm_num)
    exact ⟨sp, hm, sc, hr⟩
  · obtain ⟨sp, hm, sc, hr, _⟩ := h4 2 (by norm_num) (by norm_num)
    exact ⟨sp, hm, sc, hr⟩
